import Mathlib

/-!
Shallow embedding of `mysql-tables-to-gcs` (src/main.go) and proofs about it.

The program backs up every table of every MySQL database to Google Cloud
Storage.  `main` enumerates databases (`getDatabases`, filtering an exclusion
list), then runs one errgroup-bounded goroutine per database, each of which
enumerates tables (`getTables`) and runs one errgroup-bounded goroutine per
table.  Each table goroutine spawns `mysqldump`, streams its stdout through
`uploadToGCS` (gzip over a buffered writer over a GCS object writer) and then
waits on the process.

External effects (the mysql client output, the mysqldump process, the GCS
writer) are modelled as explicit inputs/outcome fields; the control flow, the
error-wrapping strings and the scheduling discipline are translated directly
from the source.
-/

set_option autoImplicit false

namespace MysqlTablesToGcs

/-! ### Exclusion filtering (src/main.go `contains`, `getDatabases`) -/

/-- src/main.go:252-259 `contains`: linear scan comparing each element of the
slice with `value` by Go string equality (`==`). -/
def contains : List String → String → Bool
  | [], _ => false
  | item :: rest, value => if item == value then true else contains rest value

/-- Helper for `splitComma`: `acc` holds the characters of the current
segment in reverse. -/
def splitCommaAux (acc : List Char) : List Char → List String
  | [] => [String.mk acc.reverse]
  | c :: rest =>
    if c = ',' then String.mk acc.reverse :: splitCommaAux [] rest
    else splitCommaAux (c :: acc) rest

/-- Go's `strings.Split(s, ",")`: the substrings around each comma, kept
verbatim (no trimming, no case folding); the empty string yields `[""]`. -/
def splitComma (s : String) : List String :=
  splitCommaAux [] s.data

/-- src/main.go:176-191, the pure part of `getDatabases`: the mysql client's
`SHOW DATABASES` output is consumed line by line by a `bufio.Scanner`
(modelled as the list `lines`); a line is kept iff it is not contained in the
comma-separated `skipDBs` list (`strings.Split(*skipDBs, ",")` is
`splitComma`). -/
def getDatabases (lines : List String) (skipDBs : String) : List String :=
  let skipDBList := splitComma skipDBs
  lines.filter (fun database => !(contains skipDBList database))

/-- src/main.go:43, the default of the `-skipDBs` flag. -/
def defaultSkipDBs : String := "information_schema,performance_schema,test"

/-! ### Object-key derivation (src/main.go:98 and src/main.go:224) -/

/-- A wall-clock reading, as far as Go's layout `"2006-01-02-15"` consumes it
(year, month, day, hour); `minute` is carried to distinguish readings inside
the same hour. -/
structure GoTime where
  year : Nat
  month : Nat
  day : Nat
  hour : Nat
  minute : Nat
  deriving Repr, DecidableEq

/-- The character for one decimal digit. -/
def digitChar (d : Nat) : Char := Char.ofNat (48 + d)

/-- Two-digit zero-padded decimal rendering: Go's `01`/`02`/`15` layout
fields print month, day and hour as exactly two digits (those clock fields
are always below 100). -/
def pad2 (n : Nat) : String :=
  String.mk [digitChar (n / 10 % 10), digitChar (n % 10)]

/-- Four-digit zero-padded decimal rendering: Go's `2006` layout field prints
the year as exactly four digits for the clock's range (years below 10000). -/
def pad4 (n : Nat) : String :=
  String.mk [digitChar (n / 1000 % 10), digitChar (n / 100 % 10),
    digitChar (n / 10 % 10), digitChar (n % 10)]

/-- Numeric value of a decimal digit character. -/
def digitVal (c : Char) : Nat := c.toNat - 48

/-- Read a decimal digit string back into a number; used only to prove the
pad functions injective on the ranges the clock produces. -/
def parseDigits (l : List Char) : Nat :=
  l.foldl (fun acc c => 10 * acc + digitVal c) 0

/-- `time.Time.Format("2006-01-02-15")` : year-month-day-hour. -/
def goFormatDateHour (t : GoTime) : String :=
  pad4 t.year ++ "-" ++ pad2 t.month ++ "-" ++ pad2 t.day ++ "-" ++ pad2 t.hour

/-- src/main.go:98: `backupPath := fmt.Sprintf("%s/%s/%s", hostname,
time.Now().Format("2006-01-02-15"), database)`.  `now` is the value of
`time.Now()` at the moment the table goroutine executes this line. -/
def taskBackupPath (hostname : String) (now : GoTime) (database : String) : String :=
  hostname ++ "/" ++ goFormatDateHour now ++ "/" ++ database

/-- src/main.go:224 inside `uploadToGCS`: the destination object name
`fmt.Sprintf("%s/%s.sql.gz", *backupPath, *table)`. -/
def taskObjectKey (hostname : String) (now : GoTime) (database table : String) : String :=
  taskBackupPath hostname now database ++ "/" ++ table ++ ".sql.gz"

/-- The object key as a function of an already-formatted timestamp string:
`<host>/<timestamp>/<schema>/<table>.sql.gz`. -/
def objectKey (hostname timestamp database table : String) : String :=
  hostname ++ "/" ++ timestamp ++ "/" ++ database ++ "/" ++ table ++ ".sql.gz"

/-- One run of `main`, restricted to a single database: each table task reads
the clock itself (src/main.go:98 sits inside the `tableGroup.Go` closure), so
a run is a list of (table, clock-reading-at-task) pairs and yields one object
key per task. -/
def runTaskKeys (hostname database : String) (tasks : List (String × GoTime)) : List String :=
  tasks.map (fun p => taskObjectKey hostname p.2 database p.1)

/-! ### The compress-upload sink (src/main.go:223-250 `uploadToGCS`) -/

/-- Outcomes of the five fallible external steps of `uploadToGCS`, in source
order: `io.Copy` (line 229), `bufWriter.Flush()` (233), `gzipWriter.Close()`
(237), `writer.Close()` (241), `object.Attrs(ctx)` (245).  `none` means the
step succeeds, `some e` that it returns error `e`. -/
structure UploadEnv where
  copyErr : Option String
  flushErr : Option String
  gzipCloseErr : Option String
  writerCloseErr : Option String
  attrsErr : Option String
  table : String
  deriving Repr, DecidableEq

/-- src/main.go:223-250 `uploadToGCS`: each step is tried in order and the
first failing one aborts the function with its wrapped error message. -/
def uploadToGCS (env : UploadEnv) : Except String Unit :=
  match env.copyErr with
  | some e => .error ("failed to upload backup for table \"" ++ env.table ++ "\" to GCS: " ++ e)
  | none =>
  match env.flushErr with
  | some e => .error ("failed to close bufWriter: " ++ e)
  | none =>
  match env.gzipCloseErr with
  | some e => .error ("failed to close gzipWriter: " ++ e)
  | none =>
  match env.writerCloseErr with
  | some e => .error ("failed to close writer: " ++ e)
  | none =>
  match env.attrsErr with
  | some e => .error ("failed to retrieve attributes for GCS object: " ++ e)
  | none => .ok ()

/-! ### The table backup task (src/main.go:97-140, the `tableGroup.Go` closure) -/

/-- Outcomes of the fallible steps of one table goroutine, in source order:
`cmd.StdoutPipe()` (line 120), `cmd.Start()` (125), `uploadToGCS` (129,
summarised by its returned error), `cmd.Wait()` (133; `some e` covers both a
non-zero mysqldump exit status and a wait failure). -/
structure TaskEnv where
  pipeErr : Option String
  startErr : Option String
  uploadErr : Option String
  waitErr : Option String
  database : String
  table : String
  deriving Repr, DecidableEq

deriving instance DecidableEq for Except

/-- What a table goroutine did on the path it took: its returned
`error` value, whether `cmd.Wait()` was reached, and whether the process was
killed (`cmd.Process.Kill` appears nowhere in src/main.go, so `killed` is
`false` on every path). -/
structure TaskExit where
  result : Except String Unit
  waited : Bool
  killed : Bool
  deriving Repr, DecidableEq

/-- src/main.go:97-140, the body of the per-table goroutine: pipe, start,
upload, wait, each early-returning its wrapped error.  Note that the
upload-failure return at line 130 happens before `cmd.Wait()` at line 133. -/
def tableTask (env : TaskEnv) : TaskExit :=
  match env.pipeErr with
  | some e =>
    { result := .error ("failed to create stdout pipe for mysqldump command: " ++ e)
      waited := false, killed := false }
  | none =>
  match env.startErr with
  | some e =>
    { result := .error ("failed to start mysqldump command: " ++ e)
      waited := false, killed := false }
  | none =>
  match env.uploadErr with
  | some e =>
    { result := .error ("failed to upload backup for table \"" ++ env.database ++ "."
        ++ env.table ++ "\" to GCS: " ++ e)
      waited := false, killed := false }
  | none =>
  match env.waitErr with
  | some e =>
    { result := .error ("failed to wait for mysqldump command: " ++ e)
      waited := true, killed := false }
  | none => { result := .ok (), waited := true, killed := false }

/-- The mysqldump process is running once `cmd.Start()` has succeeded, i.e.
on every path past src/main.go:127. -/
def processStarted (env : TaskEnv) : Bool :=
  env.pipeErr == none && env.startErr == none

/-! ### The two-level errgroup scheduler (src/main.go:77-156)

`main` creates `dbGroup := new(errgroup.Group)` with `SetLimit(dbLimit)`
(src/main.go:77-78) and, per database goroutine, `tableGroup :=
new(errgroup.Group)` with `SetLimit(tableLimit)` (src/main.go:91-92).
Neither group is created with `errgroup.WithContext`, and the only context in
the program is `context.Background()` (src/main.go:68), which is never
cancelled; the errgroup library cancels nothing for a plain `new(Group)`.
Hence admission of a goroutine is guarded solely by the `SetLimit` semaphore
(`Go` blocks while `limit` functions are active), never by earlier failures.
`Wait` blocks until all started functions return and returns the first
non-nil error (recorded by a `sync.Once`).

We model executions as traces of start/finish events, with a step relation
whose guards are exactly these admission rules. -/

/-- Static shape of a run: the two `SetLimit` budgets, the number of
databases returned by `getDatabases`, and the number of tables
`getTables` returns for each database. -/
structure SchedCfg where
  dbLimit : Nat
  tableLimit : Nat
  numJobs : Nat
  tasksPerJob : Nat → Nat

/-- Events of a run: a database goroutine (job `j`) starts or finishes, or a
table goroutine (task `i` of job `j`) starts or finishes returning `ok`
(`true` = nil error). -/
inductive Ev where
  | startJob (j : Nat)
  | finishJob (j : Nat)
  | startTask (j i : Nat)
  | finishTask (j i : Nat) (ok : Bool)
  deriving Repr, DecidableEq

/-- Scheduler state: which jobs/tasks have started and which have finished. -/
structure St where
  startedJobs : List Nat
  finishedJobs : List Nat
  startedTasks : List (Nat × Nat)
  finishedTasks : List (Nat × Nat)
  deriving Repr, DecidableEq

/-- State before any goroutine is launched. -/
def initSt : St := ⟨[], [], [], []⟩

/-- Number of database goroutines currently running (started, not finished):
the occupancy of `dbGroup`'s semaphore. -/
def runningJobs (st : St) : Nat :=
  (st.startedJobs.filter (fun j => !(st.finishedJobs.contains j))).length

/-- Number of table goroutines of job `j` currently running: the occupancy of
that job's `tableGroup` semaphore. -/
def runningTasks (st : St) (j : Nat) : Nat :=
  (st.startedTasks.filter (fun p => p.1 == j && !(st.finishedTasks.contains p))).length

/-- One scheduling step.  Guards translate the errgroup semantics of
src/main.go: `dbGroup.Go` admits a new job whenever fewer than `dbLimit` run
(src/main.go:78,83); a job's `tableGroup.Go` admits a new task whenever the
job is running and fewer than `tableLimit` of its tasks run
(src/main.go:92,97); a job can only finish once all its started tasks have
finished (`tableGroup.Wait()`, src/main.go:143).  No guard consults any
failure: the groups have no context to cancel. -/
def step (cfg : SchedCfg) (st : St) : Ev → Option St
  | .startJob j =>
    if j < cfg.numJobs ∧ st.startedJobs.contains j = false
        ∧ runningJobs st < cfg.dbLimit then
      some { st with startedJobs := j :: st.startedJobs }
    else none
  | .finishJob j =>
    if st.startedJobs.contains j = true ∧ st.finishedJobs.contains j = false
        ∧ st.startedTasks.all (fun p => p.1 != j || st.finishedTasks.contains p) = true then
      some { st with finishedJobs := j :: st.finishedJobs }
    else none
  | .startTask j i =>
    if st.startedJobs.contains j = true ∧ st.finishedJobs.contains j = false
        ∧ i < cfg.tasksPerJob j ∧ st.startedTasks.contains (j, i) = false
        ∧ runningTasks st j < cfg.tableLimit then
      some { st with startedTasks := (j, i) :: st.startedTasks }
    else none
  | .finishTask j i _ =>
    if st.startedTasks.contains (j, i) = true ∧ st.finishedTasks.contains (j, i) = false then
      some { st with finishedTasks := (j, i) :: st.finishedTasks }
    else none

/-- Run a whole trace from a state; `none` means the trace is not an
admissible schedule of the program. -/
def runTrace (cfg : SchedCfg) : St → List Ev → Option St
  | st, [] => some st
  | st, e :: rest =>
    match step cfg st e with
    | none => none
    | some st2 => runTrace cfg st2 rest

/-- Rewrite every task outcome in a trace to success, leaving the schedule
itself untouched. -/
def forceOk : Ev → Ev
  | .finishTask j i _ => .finishTask j i true
  | e => e

/-- Helper scanning a trace with the set of jobs that already have a recorded
task failure. -/
def startAfterFailureAux (failed : List Nat) : List Ev → Bool
  | [] => false
  | .finishTask j _ ok :: rest =>
    startAfterFailureAux (if ok then failed else j :: failed) rest
  | .startTask j _ :: rest => failed.contains j || startAfterFailureAux failed rest
  | _ :: rest => startAfterFailureAux failed rest

/-- Does some table goroutine start after a sibling task of the same job has
already finished with an error? -/
def startAfterSiblingFailure (tr : List Ev) : Bool :=
  startAfterFailureAux [] tr

/-- The error slot of an `errgroup.Group` (a `sync.Once` around `g.err`):
given the goroutines' returned errors in completion order, `Wait` returns the
first non-nil one. -/
def errOnceResult : List (Option String) → Option String
  | [] => none
  | none :: rest => errOnceResult rest
  | some e :: _ => some e

/-- A concrete configuration: limits 2/2, one database with two tables. -/
def c1Cfg : SchedCfg := ⟨2, 2, 1, fun _ => 2⟩

/-- A concrete admissible schedule under `c1Cfg`: the job starts, its first
table task starts and fails, and only then does the second table task start
and succeed. -/
def c1Trace : List Ev :=
  [.startJob 0, .startTask 0 0, .finishTask 0 0 false,
   .startTask 0 1, .finishTask 0 1 true, .finishJob 0]

/-- Invariant carried through the induction for the concurrency bound:
finish lists only contain started items, and both semaphore occupancies
respect their limits. -/
def Inv (cfg : SchedCfg) (st : St) : Prop :=
  (∀ j ∈ st.finishedJobs, j ∈ st.startedJobs) ∧
  (∀ p ∈ st.finishedTasks, p ∈ st.startedTasks) ∧
  runningJobs st ≤ cfg.dbLimit ∧ ∀ j, runningTasks st j ≤ cfg.tableLimit

/-! ### Helper lemmas -/

/-- `contains` (src/main.go:252-259) decides list membership by Go string
equality. -/
theorem contains_eq_true_iff : ∀ (l : List String) (v : String), contains l v = true ↔ v ∈ l
  | [], v => by simp [contains]
  | a :: as, v => by
    by_cases h : a = v
    · subst h; simp [contains]
    · have hb : (a == v) = false := beq_eq_false_iff_ne.mpr h
      simp [contains, hb, contains_eq_true_iff as v, List.mem_cons, eq_comm, h]

/-- Claim C7: a schema whose name is in the exclusion list never appears in
the enumerated schema list, for any exclusion-list contents; with the default
list, `information_schema`, `performance_schema` and `test` are never backed
up. -/
theorem getDatabases_never_yields_excluded :
    (∀ (skipDBs : String) (lines : List String) (name : String),
      name ∈ splitComma skipDBs → name ∉ getDatabases lines skipDBs) ∧
    (∀ lines : List String,
      "information_schema" ∉ getDatabases lines defaultSkipDBs ∧
      "performance_schema" ∉ getDatabases lines defaultSkipDBs ∧
      "test" ∉ getDatabases lines defaultSkipDBs) := by
  have key : ∀ (skipDBs : String) (lines : List String) (name : String),
      name ∈ splitComma skipDBs → name ∉ getDatabases lines skipDBs := by
    intro skip lines name hmem hin
    unfold getDatabases at hin
    rw [List.mem_filter] at hin
    have hc := (contains_eq_true_iff (splitComma skip) name).mpr hmem
    simp [hc] at hin
  refine ⟨key, fun lines => ⟨key _ _ _ ?_, key _ _ _ ?_, key _ _ _ ?_⟩⟩ <;> decide

/-- Witness for C7 at the default exclusion list and a concrete server
answer. -/
theorem getDatabases_never_yields_excluded_witness :
    ("test" ∈ splitComma defaultSkipDBs) ∧
      "test" ∉ getDatabases ["test", "appdb"] defaultSkipDBs :=
  ⟨by decide,
    getDatabases_never_yields_excluded.1 defaultSkipDBs ["test", "appdb"] "test" (by decide)⟩

/-- Claim C10: exclusion is decided by exact string equality against the
comma-split segments of `skipDBs` — no trimming, no case folding; a segment
such as `"Test"` or `" test"` excludes nothing named `test`. -/
theorem exclusion_is_exact_string_equality :
    (∀ (skipDBs : String) (lines : List String) (name : String),
      name ∈ getDatabases lines skipDBs ↔ name ∈ lines ∧ name ∉ splitComma skipDBs) ∧
    getDatabases ["test"] "Test, test" = ["test"] := by
  constructor
  · intro skip lines name
    unfold getDatabases
    rw [List.mem_filter]
    constructor
    · rintro ⟨h1, h2⟩
      refine ⟨h1, fun hmem => ?_⟩
      rw [(contains_eq_true_iff _ _).mpr hmem] at h2
      simp at h2
    · rintro ⟨h1, h2⟩
      refine ⟨h1, ?_⟩
      cases hc : contains (splitComma skip) name with
      | false => rfl
      | true => exact absurd ((contains_eq_true_iff _ _).mp hc) h2
  · decide

/-- Claim C2, evidence of the code bug: when `uploadToGCS` fails after
`cmd.Start()` succeeded, the goroutine returns at src/main.go:130 without
ever reaching `cmd.Wait()` (line 133), and no `Kill` exists in the program —
the started mysqldump process is left unreaped on this exit path. -/
theorem uploadFailure_leaves_process_unreaped :
    processStarted ⟨none, none, some "storage: broken pipe", none, "appdb", "users"⟩ = true ∧
    (tableTask ⟨none, none, some "storage: broken pipe", none, "appdb", "users"⟩).waited = false ∧
    (tableTask ⟨none, none, some "storage: broken pipe", none, "appdb", "users"⟩).killed = false :=
  ⟨rfl, rfl, rfl⟩

/-- Claim C4: a non-zero mysqldump exit status makes the task fail even when
every byte was read and uploaded successfully, because `cmd.Wait()`'s error
is returned after a successful `uploadToGCS`. -/
theorem nonzero_exit_fails_task (env : TaskEnv) (e : String)
    (h1 : env.pipeErr = none) (h2 : env.startErr = none)
    (h3 : env.uploadErr = none) (h4 : env.waitErr = some e) :
    (tableTask env).result = .error ("failed to wait for mysqldump command: " ++ e) := by
  simp [tableTask, h1, h2, h3, h4]

/-- Witness for C4: dump exits with status 2 after a fully successful
upload. -/
theorem nonzero_exit_fails_task_witness :
    ((⟨none, none, none, some "exit status 2", "appdb", "users"⟩ : TaskEnv).uploadErr = none) ∧
    (tableTask ⟨none, none, none, some "exit status 2", "appdb", "users"⟩).result =
      .error ("failed to wait for mysqldump command: " ++ "exit status 2") :=
  ⟨rfl, nonzero_exit_fails_task _ _ rfl rfl rfl rfl⟩

/-- Claim C6: `uploadToGCS` succeeds iff copy, flush, gzip close, writer
close and the post-finalize `object.Attrs` fetch all succeed, in that order;
in particular a failing metadata fetch alone makes the transfer fail. -/
theorem uploadToGCS_success_iff :
    (∀ env : UploadEnv, uploadToGCS env = .ok () ↔
      env.copyErr = none ∧ env.flushErr = none ∧ env.gzipCloseErr = none
        ∧ env.writerCloseErr = none ∧ env.attrsErr = none) ∧
    (∀ (env : UploadEnv) (e : String), env.copyErr = none → env.flushErr = none →
      env.gzipCloseErr = none → env.writerCloseErr = none → env.attrsErr = some e →
      uploadToGCS env = .error ("failed to retrieve attributes for GCS object: " ++ e)) := by
  constructor
  · intro env
    obtain ⟨c, f, g, w, a, t⟩ := env
    cases c <;> cases f <;> cases g <;> cases w <;> cases a <;> simp [uploadToGCS]
  · intro env e h1 h2 h3 h4 h5
    simp [uploadToGCS, h1, h2, h3, h4, h5]

/-- Witness for C6: all bytes written and finalized, but the metadata fetch
fails, so the transfer fails. -/
theorem uploadToGCS_success_iff_witness :
    ((⟨none, none, none, none, some "object not found", "users"⟩ : UploadEnv).attrsErr =
      some "object not found") ∧
    uploadToGCS ⟨none, none, none, none, some "object not found", "users"⟩ =
      .error ("failed to retrieve attributes for GCS object: " ++ "object not found") :=
  ⟨rfl, uploadToGCS_success_iff.2 _ _ rfl rfl rfl rfl rfl⟩

/-- Claim C9 counterexample: the wait-path (dump exit-status) error is the
same string for two different (schema, table) pairs, so that error path does
not identify the failing schema and table. -/
theorem waitError_does_not_identify_table :
    (tableTask ⟨none, none, none, some "exit status 2", "appdb", "users"⟩).result =
      (tableTask ⟨none, none, none, some "exit status 2", "logsdb", "events"⟩).result ∧
    ("appdb" : String) ≠ "logsdb" :=
  ⟨rfl, by decide⟩

/-- Claim C9 (amended): only the upload-failure path wraps the error with the
schema and table (src/main.go:130); the pipe-creation, start and wait failure
paths (src/main.go:122,126,134) each produce a message that does not depend
on the schema or table at all — two tasks for different tables failing the
same way on any of those three paths return identical errors. -/
theorem table_error_context_amended :
    (∀ (env : TaskEnv) (e : String), env.pipeErr = none → env.startErr = none →
      env.uploadErr = some e →
      (tableTask env).result = .error ("failed to upload backup for table \""
        ++ env.database ++ "." ++ env.table ++ "\" to GCS: " ++ e)) ∧
    (∀ (env env2 : TaskEnv) (e : String),
      env.pipeErr = some e → env2.pipeErr = some e →
      (tableTask env).result = (tableTask env2).result) ∧
    (∀ (env env2 : TaskEnv) (e : String),
      env.pipeErr = none → env.startErr = some e →
      env2.pipeErr = none → env2.startErr = some e →
      (tableTask env).result = (tableTask env2).result) ∧
    (∀ (env env2 : TaskEnv) (e : String),
      env.pipeErr = none → env.startErr = none → env.uploadErr = none →
      env.waitErr = some e →
      env2.pipeErr = none → env2.startErr = none → env2.uploadErr = none →
      env2.waitErr = some e →
      (tableTask env).result = (tableTask env2).result) := by
  refine ⟨?_, ?_, ?_, ?_⟩
  · intro env e h1 h2 h3
    simp [tableTask, h1, h2, h3]
  · intro env env2 e h1 g1
    simp [tableTask, h1, g1]
  · intro env env2 e h1 h2 g1 g2
    simp [tableTask, h1, h2, g1, g2]
  · intro env env2 e h1 h2 h3 h4 g1 g2 g3 g4
    simp [tableTask, h1, h2, h3, h4, g1, g2, g3, g4]

/-- Witness for the amended C9 at a concrete upload failure. -/
theorem table_error_context_amended_witness :
    ((⟨none, none, some "eio", none, "appdb", "users"⟩ : TaskEnv).uploadErr = some "eio") ∧
    (tableTask ⟨none, none, some "eio", none, "appdb", "users"⟩).result =
      .error ("failed to upload backup for table \"" ++ "appdb" ++ "." ++ "users"
        ++ "\" to GCS: " ++ "eio") :=
  ⟨rfl, table_error_context_amended.1 _ _ rfl rfl rfl⟩

/-- Claim C5 counterexample: object keys are plain `/`-joined concatenation
(src/main.go:98,224), so two distinct (schema, table) pairs whose names
contain a slash produce the same key. -/
theorem objectKey_collision :
    objectKey "h" "2024-01-01-10" "a/b" "c" = objectKey "h" "2024-01-01-10" "a" "b/c" ∧
    (("a/b", "c") : String × String) ≠ ("a", "b/c") :=
  ⟨by decide, by decide⟩

/-- Helper: a `/`-free prefix before a slash is determined by the whole
string. -/
theorem append_slash_cancel (a : List Char) :
    ∀ (b r r2 : List Char), ('/' : Char) ∉ a → ('/' : Char) ∉ b →
      a ++ '/' :: r = b ++ '/' :: r2 → a = b ∧ r = r2 := by
  induction a with
  | nil =>
    intro b r r2 _ hb h
    cases b with
    | nil =>
      refine ⟨rfl, ?_⟩
      simpa using h
    | cons x xs =>
      simp at h
      rw [← h.1] at hb
      exact absurd (List.mem_cons_self _ _) hb
  | cons c cs ih =>
    intro b r r2 ha hb h
    cases b with
    | nil =>
      simp at h
      rw [h.1] at ha
      exact absurd (List.mem_cons_self _ _) ha
    | cons x xs =>
      simp at h
      obtain ⟨h1, h2⟩ := h
      have ha2 : ('/' : Char) ∉ cs := fun hm => ha (List.mem_cons_of_mem _ hm)
      have hb2 : ('/' : Char) ∉ xs := fun hm => hb (List.mem_cons_of_mem _ hm)
      obtain ⟨e1, e2⟩ := ih xs r r2 ha2 hb2 h2
      exact ⟨by rw [h1, e1], e2⟩

/-- Claim C5 (amended): identical inputs give identical keys (`objectKey` is
a function), and within one run (same host, same timestamp) two (schema,
table) pairs whose names are free of `/` collide only if they are equal. -/
theorem objectKey_injective_on_slash_free
    (host ts s t s2 t2 : String)
    (hs : ('/' : Char) ∉ s.data) (hs2 : ('/' : Char) ∉ s2.data)
    (h : objectKey host ts s t = objectKey host ts s2 t2) :
    s = s2 ∧ t = t2 := by
  unfold objectKey at h
  have hd := congrArg String.data h
  simp only [String.data_append] at hd
  have hsl : ("/" : String).data = ['/'] := rfl
  simp only [hsl, List.append_assoc, List.singleton_append] at hd
  have hd2 := List.append_cancel_left hd
  injection hd2 with _ hd3
  have hd4 := List.append_cancel_left hd3
  injection hd4 with _ hd5
  obtain ⟨e1, e2⟩ := append_slash_cancel s.data s2.data _ _ hs hs2 hd5
  have e3 : t.data = t2.data := List.append_cancel_right e2
  exact ⟨String.ext e1, String.ext e3⟩

/-- Witness for the amended C5 at slash-free concrete names. -/
theorem objectKey_injective_on_slash_free_witness :
    (('/' : Char) ∉ ("appdb" : String).data) ∧
      (("appdb" : String) = "appdb" ∧ ("users" : String) = "users") :=
  ⟨by decide,
    objectKey_injective_on_slash_free "h" "2024-01-01-10" "appdb" "users" "appdb" "users"
      (by decide) (by decide) rfl⟩

/-- Claim C3 counterexample: `time.Now()` is evaluated inside each table
goroutine (src/main.go:98), not once per run; a run whose tasks straddle an
hour boundary derives keys with different timestamp components. -/
theorem run_timestamp_not_shared :
    runTaskKeys "h" "appdb"
        [("users", ⟨2024, 1, 1, 10, 59⟩), ("events", ⟨2024, 1, 1, 11, 0⟩)] =
      ["h/2024-01-01-10/appdb/users.sql.gz", "h/2024-01-01-11/appdb/events.sql.gz"] ∧
    goFormatDateHour ⟨2024, 1, 1, 10, 59⟩ ≠ goFormatDateHour ⟨2024, 1, 1, 11, 0⟩ :=
  ⟨by decide, by decide⟩

/-- Reading back the character of a decimal digit gives the digit. -/
theorem digitVal_digitChar : ∀ d, d < 10 → digitVal (digitChar d) = d := by decide

/-- Pad-2 strings have exactly two characters. -/
theorem pad2_len (a : Nat) : ((pad2 a).data).length = 2 := rfl

/-- `parseDigits` inverts `pad2` on two-digit numbers. -/
theorem pad2_roundtrip (a : Nat) (ha : a < 100) : parseDigits (pad2 a).data = a := by
  show parseDigits [digitChar (a / 10 % 10), digitChar (a % 10)] = a
  unfold parseDigits
  simp only [List.foldl]
  rw [digitVal_digitChar _ (by omega), digitVal_digitChar _ (by omega)]
  omega

/-- `parseDigits` inverts `pad4` on four-digit numbers. -/
theorem pad4_roundtrip (a : Nat) (ha : a < 10000) : parseDigits (pad4 a).data = a := by
  show parseDigits [digitChar (a / 1000 % 10), digitChar (a / 100 % 10),
    digitChar (a / 10 % 10), digitChar (a % 10)] = a
  unfold parseDigits
  simp only [List.foldl]
  rw [digitVal_digitChar _ (by omega), digitVal_digitChar _ (by omega),
    digitVal_digitChar _ (by omega), digitVal_digitChar _ (by omega)]
  omega

/-- `pad2` is injective below 100. -/
theorem pad2_inj {a b : Nat} (ha : a < 100) (hb : b < 100)
    (h : (pad2 a).data = (pad2 b).data) : a = b := by
  have r1 := pad2_roundtrip a ha
  have r2 := pad2_roundtrip b hb
  rw [← r1, ← r2, h]

/-- `pad4` is injective below 10000. -/
theorem pad4_inj {a b : Nat} (ha : a < 10000) (hb : b < 10000)
    (h : (pad4 a).data = (pad4 b).data) : a = b := by
  have r1 := pad4_roundtrip a ha
  have r2 := pad4_roundtrip b hb
  rw [← r1, ← r2, h]

/-- Claim C3 (amended): the run timestamp is captured per table task
(src/main.go:98), not once per run; for clock readings in the ranges Go's
clock produces (year below 10000; month, day and hour two-digit), two tasks
of one run (same host and schema) derive backup paths that share the
timestamp component if and only if their readings agree on year, month, day
and hour. -/
theorem same_hour_same_timestamp (t1 t2 : GoTime) (host db : String)
    (hy1 : t1.year < 10000) (hy2 : t2.year < 10000)
    (hm1 : t1.month < 100) (hm2 : t2.month < 100)
    (hd1 : t1.day < 100) (hd2 : t2.day < 100)
    (hh1 : t1.hour < 100) (hh2 : t2.hour < 100) :
    (goFormatDateHour t1 = goFormatDateHour t2 ↔
      t1.year = t2.year ∧ t1.month = t2.month ∧ t1.day = t2.day ∧ t1.hour = t2.hour) ∧
    (taskBackupPath host t1 db = taskBackupPath host t2 db ↔
      goFormatDateHour t1 = goFormatDateHour t2) := by
  constructor
  · constructor
    · intro h
      have hdp := congrArg String.data h
      unfold goFormatDateHour at hdp
      simp only [String.data_append] at hdp
      have hdash : ("-" : String).data = ['-'] := rfl
      simp only [hdash, List.append_assoc, List.singleton_append] at hdp
      have hlen : ('-' :: ((pad2 t1.month).data ++ '-' :: ((pad2 t1.day).data
            ++ '-' :: (pad2 t1.hour).data))).length =
          ('-' :: ((pad2 t2.month).data ++ '-' :: ((pad2 t2.day).data
            ++ '-' :: (pad2 t2.hour).data))).length := by
        simp only [List.length_cons, List.length_append, pad2_len]
      obtain ⟨hyblock, hrest⟩ := List.append_inj' hdp hlen
      injection hrest with _ hrest1
      obtain ⟨hmblock, hrest2⟩ :=
        List.append_inj hrest1 (by rw [pad2_len, pad2_len])
      injection hrest2 with _ hrest3
      obtain ⟨hdblock, hrest4⟩ :=
        List.append_inj hrest3 (by rw [pad2_len, pad2_len])
      injection hrest4 with _ hhblock
      exact ⟨pad4_inj hy1 hy2 hyblock, pad2_inj hm1 hm2 hmblock,
        pad2_inj hd1 hd2 hdblock, pad2_inj hh1 hh2 hhblock⟩
    · rintro ⟨e1, e2, e3, e4⟩
      unfold goFormatDateHour
      rw [e1, e2, e3, e4]
  · constructor
    · intro h
      have hdp := congrArg String.data h
      unfold taskBackupPath at hdp
      simp only [String.data_append] at hdp
      have hslash : ("/" : String).data = ['/'] := rfl
      simp only [hslash, List.append_assoc, List.singleton_append] at hdp
      have h2 := List.append_cancel_left hdp
      injection h2 with _ h3
      have h4 := List.append_cancel_right h3
      exact String.ext h4
    · intro h
      unfold taskBackupPath
      rw [h]

/-- Witness for the amended C3: two readings in the same hour bucket. -/
theorem same_hour_same_timestamp_witness :
    ((⟨2024, 1, 1, 10, 5⟩ : GoTime).year < 10000) ∧
    ((goFormatDateHour ⟨2024, 1, 1, 10, 5⟩ = goFormatDateHour ⟨2024, 1, 1, 10, 42⟩ ↔
        (⟨2024, 1, 1, 10, 5⟩ : GoTime).year = (⟨2024, 1, 1, 10, 42⟩ : GoTime).year ∧
        (⟨2024, 1, 1, 10, 5⟩ : GoTime).month = (⟨2024, 1, 1, 10, 42⟩ : GoTime).month ∧
        (⟨2024, 1, 1, 10, 5⟩ : GoTime).day = (⟨2024, 1, 1, 10, 42⟩ : GoTime).day ∧
        (⟨2024, 1, 1, 10, 5⟩ : GoTime).hour = (⟨2024, 1, 1, 10, 42⟩ : GoTime).hour) ∧
      (taskBackupPath "h" ⟨2024, 1, 1, 10, 5⟩ "appdb" =
          taskBackupPath "h" ⟨2024, 1, 1, 10, 42⟩ "appdb" ↔
        goFormatDateHour ⟨2024, 1, 1, 10, 5⟩ = goFormatDateHour ⟨2024, 1, 1, 10, 42⟩)) :=
  ⟨by decide,
    same_hour_same_timestamp ⟨2024, 1, 1, 10, 5⟩ ⟨2024, 1, 1, 10, 42⟩ "h" "appdb"
      (by decide) (by decide) (by decide) (by decide)
      (by decide) (by decide) (by decide) (by decide)⟩

/-- Claim C1 counterexample: `c1Trace` is an admissible schedule of the
program (the errgroups are plain `new(errgroup.Group)` with no context, so
nothing is cancelled) in which sibling task (0,1) starts after task (0,0)
already finished with an error. -/
theorem sibling_task_starts_after_failure :
    (runTrace c1Cfg initSt c1Trace).isSome = true ∧
    startAfterSiblingFailure c1Trace = true :=
  ⟨by decide, by decide⟩

/-- Claim C1 (amended): at each level the first recorded failure becomes the
reported error of that level (`Wait` returns the `sync.Once` slot, the first
non-nil error in completion order), but it cancels nothing: admissibility of
a schedule is unchanged when every task failure is replaced by success, so
remaining tasks and jobs start and run exactly as they would without the
failure. -/
theorem first_error_reported_no_cancellation :
    (∀ (cfg : SchedCfg) (st : St) (tr : List Ev),
      runTrace cfg st (tr.map forceOk) = runTrace cfg st tr) ∧
    (∀ (pre rest : List (Option String)) (e : String),
      pre.all Option.isNone = true → errOnceResult (pre ++ some e :: rest) = some e) := by
  constructor
  · intro cfg st tr
    induction tr generalizing st with
    | nil => rfl
    | cons ev rest ih =>
      have hstep : step cfg st (forceOk ev) = step cfg st ev := by
        cases ev <;> rfl
      cases h : step cfg st ev with
      | none => simp [runTrace, hstep, h]
      | some st2 => simp [runTrace, hstep, h, ih st2]
  · intro pre rest e
    induction pre with
    | nil => intro _; rfl
    | cons x xs ih =>
      intro hall
      simp only [List.all_cons, Bool.and_eq_true] at hall
      obtain ⟨hx, hxs⟩ := hall
      rw [Option.isNone_iff_eq_none] at hx
      subst hx
      simpa [errOnceResult] using ih hxs

/-- Witness for the amended C1: two clean completions, then a failure, then
two more completions; `Wait` reports the failure. -/
theorem first_error_reported_no_cancellation_witness :
    (([none, none] : List (Option String)).all Option.isNone = true) ∧
    errOnceResult ([none, none] ++ some "boom" :: [none, some "later"]) = some "boom" :=
  ⟨rfl, first_error_reported_no_cancellation.2 [none, none] [none, some "later"] "boom" rfl⟩

/-- Monotonicity of filtering under a pointwise-weaker predicate. -/
theorem filter_length_le_of_imp {α : Type} (l : List α) (p q : α → Bool)
    (h : ∀ x, p x = true → q x = true) :
    (l.filter p).length ≤ (l.filter q).length := by
  induction l with
  | nil => simp
  | cons a as ih =>
    by_cases hp : p a = true
    · rw [List.filter_cons_of_pos hp, List.filter_cons_of_pos (h a hp)]
      exact Nat.succ_le_succ ih
    · rw [List.filter_cons_of_neg hp]
      by_cases hq : q a = true
      · rw [List.filter_cons_of_pos hq]
        exact Nat.le_succ_of_le ih
      · rw [List.filter_cons_of_neg hq]
        exact ih

/-- Every scheduler step keeps the semaphore occupancies within their
limits. -/
theorem step_preserves_inv {cfg : SchedCfg} {st st2 : St} {e : Ev}
    (h : step cfg st e = some st2) (hi : Inv cfg st) : Inv cfg st2 := by
  obtain ⟨hfj, hft, hrj, hrt⟩ := hi
  cases e with
  | startJob j =>
    simp only [step] at h
    split at h
    case isTrue hc =>
      obtain ⟨hnum, hns, hlt⟩ := hc
      injection h with h2
      subst h2
      refine ⟨fun x hx => List.mem_cons_of_mem _ (hfj x hx), hft, ?_, fun j2 => hrt j2⟩
      have hjf : j ∉ st.finishedJobs := by
        intro hmem
        have h4 : st.startedJobs.contains j = true := by simpa using hfj j hmem
        rw [h4] at hns
        cases hns
      show ((j :: st.startedJobs).filter
        (fun x => !(st.finishedJobs.contains x))).length ≤ cfg.dbLimit
      rw [List.filter_cons_of_pos (by simp [hjf])]
      exact hlt
    case isFalse => exact Option.noConfusion h
  | finishJob j =>
    simp only [step] at h
    split at h
    case isTrue hc =>
      obtain ⟨hsj, hnf, hall⟩ := hc
      injection h with h2
      subst h2
      refine ⟨?_, hft, ?_, fun j2 => hrt j2⟩
      · intro x hx
        rcases List.mem_cons.mp hx with h3 | h3
        · subst h3; simpa using hsj
        · exact hfj x h3
      · show (st.startedJobs.filter
          (fun x => !((j :: st.finishedJobs).contains x))).length ≤ cfg.dbLimit
        refine le_trans (filter_length_le_of_imp _ _ _ ?_) hrj
        intro x hx
        simp only [List.contains_cons, Bool.not_eq_true', Bool.or_eq_false_iff] at hx
        simpa using hx.2
    case isFalse => exact Option.noConfusion h
  | startTask j i =>
    simp only [step] at h
    split at h
    case isTrue hc =>
      obtain ⟨hsj, hnfj, hlti, hnst, hltT⟩ := hc
      injection h with h2
      subst h2
      refine ⟨hfj, fun p hp => List.mem_cons_of_mem _ (hft p hp), hrj, ?_⟩
      intro j2
      show (((j, i) :: st.startedTasks).filter
        (fun p => p.1 == j2 && !(st.finishedTasks.contains p))).length ≤ cfg.tableLimit
      by_cases hjj : j = j2
      · subst hjj
        have hfin : (j, i) ∉ st.finishedTasks := by
          intro hmem
          have h5 : st.startedTasks.contains (j, i) = true := by simpa using hft _ hmem
          rw [h5] at hnst
          cases hnst
        rw [List.filter_cons_of_pos (by simp [hfin])]
        exact hltT
      · rw [List.filter_cons_of_neg (by simp [beq_eq_false_iff_ne.mpr hjj])]
        exact hrt j2
    case isFalse => exact Option.noConfusion h
  | finishTask j i ok =>
    simp only [step] at h
    split at h
    case isTrue hc =>
      obtain ⟨hst, hnf⟩ := hc
      injection h with h2
      subst h2
      refine ⟨hfj, ?_, hrj, ?_⟩
      · intro p hp
        rcases List.mem_cons.mp hp with h3 | h3
        · subst h3; simpa using hst
        · exact hft p h3
      · intro j2
        show (st.startedTasks.filter
          (fun p => p.1 == j2 && !(((j, i) :: st.finishedTasks).contains p))).length
            ≤ cfg.tableLimit
        refine le_trans (filter_length_le_of_imp _ _ _ ?_) (hrt j2)
        intro x hx
        simp only [List.contains_cons, Bool.and_eq_true, Bool.not_eq_true',
          Bool.or_eq_false_iff] at hx
        simp only [hx.1, Bool.true_and]
        simpa using hx.2.2
    case isFalse => exact Option.noConfusion h

/-- The invariant holds after any admissible trace. -/
theorem runTrace_preserves_inv {cfg : SchedCfg} (tr : List Ev) :
    ∀ {st st2 : St}, runTrace cfg st tr = some st2 → Inv cfg st → Inv cfg st2 := by
  induction tr with
  | nil =>
    intro st st2 h hi
    injection h with h2
    subst h2
    exact hi
  | cons e rest ih =>
    intro st st2 h hi
    cases hs : step cfg st e with
    | none => simp [runTrace, hs] at h
    | some stm =>
      have h2 : runTrace cfg stm rest = some st2 := by simpa [runTrace, hs] using h
      exact ih h2 (step_preserves_inv hs hi)

/-- Claim C8: in every admissible schedule, at every moment, at most
`dbLimit` database goroutines run simultaneously, and within any one job at
most `tableLimit` of its table goroutines run simultaneously, whatever the
budgets and however many jobs are active. -/
theorem concurrency_bounds (cfg : SchedCfg) (tr : List Ev) (st : St) (j : Nat)
    (h : runTrace cfg initSt tr = some st) :
    runningJobs st ≤ cfg.dbLimit ∧ runningTasks st j ≤ cfg.tableLimit := by
  have hinv : Inv cfg initSt :=
    ⟨fun x hx => absurd hx (List.not_mem_nil x),
     fun p hp => absurd hp (List.not_mem_nil p),
     Nat.zero_le _, fun _ => Nat.zero_le _⟩
  obtain ⟨-, -, h1, h2⟩ := runTrace_preserves_inv tr h hinv
  exact ⟨h1, h2 j⟩

/-- Witness for C8: limits 2/2, two jobs running with one task admitted. -/
theorem concurrency_bounds_witness :
    (runTrace ⟨2, 2, 3, fun _ => 4⟩ initSt [.startJob 0, .startTask 0 0, .startJob 1] =
      some ⟨[1, 0], [], [(0, 0)], []⟩) ∧
    (runningJobs ⟨[1, 0], [], [(0, 0)], []⟩ ≤ 2 ∧ runningTasks ⟨[1, 0], [], [(0, 0)], []⟩ 0 ≤ 2) :=
  ⟨by decide,
    concurrency_bounds ⟨2, 2, 3, fun _ => 4⟩ [.startJob 0, .startTask 0 0, .startJob 1]
      ⟨[1, 0], [], [(0, 0)], []⟩ 0 (by decide)⟩

end MysqlTablesToGcs
